import Mathlib

/-!
Shallow embedding of the ilastik application-glue code:
  * pixelClassificationSerializer.py  (slicing serialization, dirty flags,
    classifier deserialization)
  * opSplitBodyCarving.py             (OpSplitBodyCarving, OpHighlightLabel)
  * multicutGui.py                    (reentrancy-guarded GUI/operator sync)
Strings are modelled as `List Char`; Python ints as `Int`; numpy arrays as a
shape together with a flat data list.  Parts of the lazyflow engine that the
repository only calls (slot observer lists, `forceValue`) are modelled from the
spec and marked as such in their doc comments.
-/

namespace Ilastik

/-! ## Python decimal numerals: `str(n)` and `int(s)` -/

/-- The decimal digit character for `d` (`0 ≤ d < 10`), i.e. chr(48 + d). -/
def digitChar (d : Nat) : Char := Char.ofNat (48 + d)

/-- The value of a decimal digit character, `none` for a non-digit
(Python `int()` raises `ValueError` there). -/
def digitVal (c : Char) : Option Nat :=
  if 48 ≤ c.toNat ∧ c.toNat ≤ 57 then some (c.toNat - 48) else none

/-- Fuel-driven core of Python `str` on a non-negative int: most significant
digit first.  Fuel `n + 1` always suffices. -/
def pyStrNatAux : Nat → Nat → List Char
  | 0, _ => []
  | fuel + 1, n =>
    if n < 10 then [digitChar n]
    else pyStrNatAux fuel (n / 10) ++ [digitChar (n % 10)]

/-- Python `str(n)` for a natural number `n`. -/
def pyStrNat (n : Nat) : List Char := pyStrNatAux (n + 1) n

/-- Python `str(i)` for an int: a minus sign followed by the digits when
negative. -/
def pyStrInt (i : Int) : List Char :=
  if i < 0 then '-' :: pyStrNat (-i).toNat else pyStrNat i.toNat

/-- Accumulating digit parser: processes the digit string left to right,
failing on the first non-digit (as Python `int()` does). -/
def parseNatAux : List Char → Nat → Option Nat
  | [], acc => some acc
  | c :: rest, acc =>
    match digitVal c with
    | some d => parseNatAux rest (acc * 10 + d)
    | none => none

/-- Python `int(s)` on a string of decimal digits; the empty string is a
`ValueError`. -/
def parseNat : List Char → Option Nat
  | [] => none
  | c :: rest => parseNatAux (c :: rest) 0

/-- Python `int(s)` on an optionally `-`-signed decimal string. -/
def parseInt : List Char → Option Int
  | [] => none
  | c :: rest =>
    if c = '-' then (parseNat rest).map (fun n => -(n : Int))
    else (parseNat (c :: rest)).map (fun n => (n : Int))

/-! ## Slicings (pixelClassificationSerializer.py, lines 201-231) -/

/-- A Python `slice(start, stop)` with integer bounds, as used for label-block
slicings. -/
structure PySlice where
  start : Int
  stop : Int
deriving DecidableEq, Repr

/-- Python `str.split(sep)` for a one-character separator: the result is always
non-empty, and splitting the empty string gives `[[]]`. -/
def splitOnChar (sep : Char) : List Char → List (List Char)
  | [] => [[]]
  | c :: rest =>
    match splitOnChar sep rest with
    | [] => [[]]
    | h :: t => if c = sep then [] :: h :: t else (c :: h) :: t

/-- `PixelClassificationSerializer.slicingToString` (lines 201-215): start from
`'['`, append `start:stop,` per slice, drop the final character (the trailing
comma, or the `'['` itself when the slicing is empty), append `']'`. -/
def slicingToString (slicing : List PySlice) : List Char :=
  (slicing.foldl
      (fun acc s => acc ++ pyStrInt s.start ++ [':'] ++ pyStrInt s.stop ++ [','])
      ['[']).dropLast ++ [']']

/-- One iteration of the parse loop in `stringToSlicing` (lines 225-229):
`ends = s.split(':'); start = int(ends[0]); stop = int(ends[1])`.  Fewer than
two fields is an `IndexError`, a failed `int()` a `ValueError`; both are
modelled as `none`. -/
def parseSliceStr (s : List Char) : Option PySlice :=
  match splitOnChar ':' s with
  | e0 :: e1 :: _ =>
    match parseInt e0, parseInt e1 with
    | some a, some b => some ⟨a, b⟩
    | _, _ => none
  | _ => none

/-- The parse loop of `stringToSlicing`, collecting the slices in order and
propagating any exception. -/
def parseSlices : List (List Char) → Option (List PySlice)
  | [] => some []
  | s :: rest =>
    match parseSliceStr s, parseSlices rest with
    | some a, some l => some (a :: l)
    | _, _ => none

/-- `PixelClassificationSerializer.stringToSlicing` (lines 217-231): drop the
brackets (`strSlicing[1:-1]`), split on commas, parse each `start:stop`
field. -/
def stringToSlicing (cs : List Char) : Option (List PySlice) :=
  parseSlices (splitOnChar ',' ((cs.drop 1).dropLast))

/-- The characters contributed by one slice: `start:stop`. -/
def sliceChars (s : PySlice) : List Char := pyStrInt s.start ++ ':' :: pyStrInt s.stop

/-- The loop body of `slicingToString` after the opening bracket:
`start:stop,` for each slice in order. -/
def slicingBody (l : List PySlice) : List Char :=
  l.foldr (fun s r => sliceChars s ++ [','] ++ r) []

/-! ## ROIs, dirty regions and the split-body operators (opSplitBodyCarving.py) -/

/-- A region of interest: a start and a stop coordinate tuple. -/
structure Roi where
  start : List Int
  stop : List Int
deriving DecidableEq, Repr

/-- The argument of a `setDirty` call: an explicit `(start, stop)` region, or
the unbounded marker `slice(None)` meaning the entire domain. -/
inductive DirtyRegion where
  | region (start stop : List Int)
  | all
deriving DecidableEq, Repr

/-- `big.contains small`: the dirty region `big` covers at least `small`.
The unbounded marker covers everything; a bounded region covers a bounded
region nested in it coordinatewise. -/
def DirtyRegion.contains : DirtyRegion → DirtyRegion → Prop
  | .all, _ => True
  | .region _ _, .all => False
  | .region s t, .region s' t' =>
    List.Forall₂ (· ≤ ·) s s' ∧ List.Forall₂ (· ≤ ·) t' t

/-- Slot metadata, as copied by `meta.assignFrom`. -/
structure SlotMeta where
  shape : List Nat
  dtypeCode : Nat
deriving DecidableEq, Repr

/-- A numpy array: a shape and the flattened data. -/
structure NDArray where
  shape : List Nat
  data : List Nat
deriving DecidableEq, Repr

/-- The extent `stop - start` of an ROI, elementwise. -/
def roiExtent (roi : Roi) : List Nat :=
  List.zipWith (fun a b => (b - a).toNat) roi.start roi.stop

/-- numpy `.writeInto(result).wait()`: the pulled data is copied into the
pre-allocated buffer, which keeps its shape. -/
def writeInto (pulled result : NDArray) : NDArray := { result with data := pulled.data }

/-- The slots `OpHighlightLabel.propagateDirty` can receive; `other` stands
for a slot the operator does not declare (an assertion failure there). -/
inductive HighlightInSlot
  | input
  | highlightLabel
  | other
deriving DecidableEq, Repr

/-- The single output slot of `OpHighlightLabel`. -/
inductive HighlightOutSlot
  | output
deriving DecidableEq, Repr

namespace OpHighlightLabel

/-- `OpHighlightLabel.propagateDirty` (lines 127-133 of
opSplitBodyCarving.py): Input dirties Output over exactly the incoming ROI,
HighlightLabel dirties Output over `slice(None)`, any other slot is
`assert False` (modelled as `none`).  The value is the list of `setDirty`
calls issued. -/
def propagateDirty (slot : HighlightInSlot) (roi : Roi) :
    Option (List (HighlightOutSlot × DirtyRegion)) :=
  match slot with
  | .input => some [(.output, .region roi.start roi.stop)]
  | .highlightLabel => some [(.output, .all)]
  | .other => none

/-- `OpHighlightLabel.setupOutputs` (lines 115-116):
`Output.meta.assignFrom(Input.meta)`. -/
def setupOutputs (inputMeta : SlotMeta) : SlotMeta := inputMeta

/-- `OpHighlightLabel.execute` (lines 118-125): when the highlight label is 0
the whole buffer is zeroed; otherwise the Input data over the roi is pulled
into the buffer and `numpy.where(result == label, 1, 0)` is applied. -/
def execute (highlightLabel : Nat) (inputRoiData result : NDArray) : NDArray :=
  if highlightLabel = 0 then
    { result with data := result.data.map (fun _ => 0) }
  else
    let result1 := writeInto inputRoiData result
    { result1 with data := result1.data.map (fun v => if v = highlightLabel then 1 else 0) }

end OpHighlightLabel

/-- The slots `OpSplitBodyCarving.propagateDirty` handles itself; `other`
stands for any slot delegated to the `OpCarving` base class (whose code is
outside this excerpt). -/
inductive CarvingInSlot
  | ravelerLabels
  | currentRavelerLabel
  | other
deriving DecidableEq, Repr

/-- The output slots of `OpSplitBodyCarving` involved in the claims. -/
inductive CarvingOutSlot
  | maskedSegmentation
  | highlightedRavelerObject
deriving DecidableEq, Repr

namespace OpSplitBodyCarving

/-- `OpSplitBodyCarving.propagateDirty` (lines 99-105): RavelerLabels dirties
MaskedSegmentation over exactly the incoming ROI, CurrentRavelerLabel over
`slice(None)`; any other slot is delegated to the base class (modelled as
`none`). -/
def propagateDirty (slot : CarvingInSlot) (roi : Roi) :
    Option (List (CarvingOutSlot × DirtyRegion)) :=
  match slot with
  | .ravelerLabels => some [(.maskedSegmentation, .region roi.start roi.stop)]
  | .currentRavelerLabel => some [(.maskedSegmentation, .all)]
  | .other => none

/-- The dirty handler `handleDirtySegmentation` registered by
`OpSplitBodyCarving.setupOutputs` (lines 79-80): forward the Segmentation
dirty region unchanged to `MaskedSegmentation.setDirty`. -/
def handleDirtySegmentation (r : DirtyRegion) : List (CarvingOutSlot × DirtyRegion) :=
  [(CarvingOutSlot.maskedSegmentation, r)]

/-- The observable state `OpSplitBodyCarving.setupOutputs` acts on: the
MaskedSegmentation metadata and the dirty-callback list registered on the
Segmentation slot.  Modelled from the spec for the missing engine part:
`notifyDirty` appends the callback to the slot's observer list. -/
structure State where
  maskedSegMeta : Option SlotMeta
  segSubscribers : List (DirtyRegion → List (CarvingOutSlot × DirtyRegion))

/-- The operator state before any `setupOutputs` call, with no dirty
callback yet registered on Segmentation. -/
def freshState : State := ⟨none, []⟩

/-- `OpSplitBodyCarving.setupOutputs` (lines 76-81): assign
`MaskedSegmentation.meta` from `Segmentation.meta` (the argument `segMeta`,
produced by the `OpCarving` base call) and register `handleDirtySegmentation`
on the Segmentation slot via `notifyDirty`. -/
def setupOutputs (segMeta : SlotMeta) (s : State) : State :=
  { maskedSegMeta := some segMeta,
    segSubscribers := s.segSubscribers ++ [handleDirtySegmentation] }

/-- Modelled from the spec: `Segmentation.setDirty(r)` synchronously invokes
every registered callback exactly once with the region `r`; the result is the
concatenated list of `MaskedSegmentation.setDirty` calls they issue, in
registration order. -/
def fireSegmentationDirty (s : State) (r : DirtyRegion) :
    List (CarvingOutSlot × DirtyRegion) :=
  s.segSubscribers.foldr (fun f acc => f r ++ acc) []

/-- `OpSplitBodyCarving.execute` on MaskedSegmentation (lines 83-88): pull
RavelerLabels over the roi, pull Segmentation into the result buffer, then
`numpy.where(ravelerLabels == CurrentRavelerLabel.value, result, 0)`. -/
def executeMaskedSegmentation (currentRavelerLabel : Nat)
    (ravelerRoiData segRoiData result : NDArray) : NDArray :=
  let result1 := writeInto segRoiData result
  { result1 with
    data := List.zipWith (fun rv sv => if rv = currentRavelerLabel then sv else 0)
      ravelerRoiData.data result1.data }

/-- The wiring in `OpSplitBodyCarving.__init__` (lines 23-28):
HighlightedRavelerObject is `OpHighlightLabel.Output` of the internal
highlighter whose Input is RavelerLabels and whose HighlightLabel is
CurrentRavelerLabel. -/
def highlightedRavelerObject (currentRavelerLabel : Nat)
    (ravelerRoiData buffer : NDArray) : NDArray :=
  OpHighlightLabel.execute currentRavelerLabel ravelerRoiData buffer

end OpSplitBodyCarving

/-- Modelled from the spec: one dirty event on a slot delivers to each
registered subscriber exactly one callback, carrying the event's region, in
registration order. -/
def dirtyDeliveries (subs : List (DirtyRegion → List (CarvingOutSlot × DirtyRegion)))
    (r : DirtyRegion) : List DirtyRegion :=
  subs.map (fun _ => r)

/-! ## PixelClassificationSerializer dirty flags and classifier cache -/

/-- The serializer's logical sections (class `Section`, lines 14-17 of
pixelClassificationSerializer.py). -/
inductive SerSection
  | labels
  | classifier
  | predictions
deriving DecidableEq, Repr

/-- The per-section dirty flags `self._dirtyFlags`. -/
structure DirtyFlags where
  labels : Bool
  classifier : Bool
  predictions : Bool
deriving DecidableEq, Repr

/-- `_initDirtyFlags` (lines 44-47): every section starts clean. -/
def initDirtyFlags : DirtyFlags := ⟨false, false, false⟩

/-- The dirty callback `handleDirty` (lines 32-33): set that section's
flag. -/
def handleDirty (sec : SerSection) (f : DirtyFlags) : DirtyFlags :=
  match sec with
  | .labels => { f with labels := true }
  | .classifier => { f with classifier := true }
  | .predictions => { f with predictions := true }

/-- `isDirty` (lines 233-238): `any(self._dirtyFlags.values())`. -/
def isDirty (f : DirtyFlags) : Bool := f.labels || f.classifier || f.predictions

/-- `_serializeToHdf5` (lines 49-73) as it acts on the dirty flags: the Labels
and Classifier sections whose flags are set are written (Predictions
serialization is commented out), then `_initDirtyFlags` clears every flag.
Returns the final flags and the sections written, in order. -/
def serializeToHdf5 (f : DirtyFlags) : DirtyFlags × List SerSection :=
  (initDirtyFlags,
    (if f.labels then [SerSection.labels] else []) ++
      (if f.classifier then [SerSection.classifier] else []))

/-- Modelled from the spec: a slot backed by a cache, holding an optional
direct value.  `retrainCount` counts the recomputations (re-trainings)
triggered so far. -/
structure CacheSlot (α : Type) where
  cachedValue : Option α
  retrainCount : Nat

/-- Modelled from the spec: `forceValue` assigns a direct value to the cache,
bypassing recomputation: the value becomes present and no retraining is
triggered. -/
def forceValue {α : Type} (s : CacheSlot α) (v : α) : CacheSlot α :=
  { cachedValue := some v, retrainCount := s.retrainCount }

/-- `ready()` on a value slot: true iff a value is present. -/
def CacheSlot.ready {α : Type} (s : CacheSlot α) : Bool := s.cachedValue.isSome

/-- `_deserializeClassifier` (lines 172-199) as it acts on the classifier
cache and the classifier dirty flag: no project group means everything is
left unchanged; a group without a 'Classifier' entry (`KeyError`) only clears
the flag; otherwise the loaded classifier is forced into `classifier_cache`
and the flag cleared. -/
def deserializeClassifier {α : Type} (topGroup : Option (Option α))
    (cache : CacheSlot α) (f : DirtyFlags) : CacheSlot α × DirtyFlags :=
  match topGroup with
  | none => (cache, f)
  | some none => (cache, { f with classifier := false })
  | some (some c) => (forceValue cache c, { f with classifier := false })

/-! ## multicutGui.py: reentrancy-guarded configure functions -/

/-- The GUI-side state the configure functions touch: the `_currently_updating`
reentrancy flag, the beta spin box and the solver combo-box index.  Beta
values are kept abstract in `β`. -/
structure GuiState (β : Type) where
  currentlyUpdating : Bool
  betaBox : β
  solverCombo : Nat

/-- The operator-side slots the configure functions touch. -/
structure OpState (β : Type) where
  beta : β
  solverName : String

/-- `configure_gui_from_operator` (lines 164-181 of multicutGui.py): return
immediately when an update is already in progress; otherwise, under
`set_updating`, copy `op.Beta` into the spin box and select the operator's
solver in the combo box, falling back to (and writing back into
`op.SolverName`) the default solver when the stored name is unknown.  `none`
models the uncaught exception when even the default name is absent from
`names`. -/
def configure_gui_from_operator {β : Type} (names : List String) (defaultName : String)
    (g : GuiState β) (o : OpState β) : Option (GuiState β × OpState β) :=
  if g.currentlyUpdating then some (g, o)
  else
    let g1 : GuiState β := { g with currentlyUpdating := true, betaBox := o.beta }
    match names.findIdx? (fun n => n == o.solverName) with
    | some idx => some ({ g1 with solverCombo := idx, currentlyUpdating := false }, o)
    | none =>
      match names.findIdx? (fun n => n == defaultName) with
      | some didx =>
        some ({ g1 with solverCombo := didx, currentlyUpdating := false },
          { o with solverName := defaultName })
      | none => none

/-- `configure_operator_from_gui` (lines 183-189): return immediately when an
update is already in progress; otherwise, under `set_updating`, copy the spin
box into `op.Beta` and the combo box's current text into `op.SolverName`. -/
def configure_operator_from_gui {β : Type} (names : List String)
    (g : GuiState β) (o : OpState β) : Option (GuiState β × OpState β) :=
  if g.currentlyUpdating then some (g, o)
  else
    some ({ g with currentlyUpdating := false },
      { o with beta := g.betaBox, solverName := names.getD g.solverCombo "" })

/-! ### Lemmas: decimal printing and parsing invert each other -/

theorem digitVal_digitChar {d : Nat} (h : d < 10) : digitVal (digitChar d) = some d := by
  interval_cases d <;> decide

theorem digitChar_ne_special {d : Nat} (h : d < 10) :
    digitChar d ≠ ',' ∧ digitChar d ≠ ':' ∧ digitChar d ≠ '-' := by
  interval_cases d <;> decide

theorem pyStrNatAux_ne_nil (fuel n : Nat) (h : n + 1 ≤ fuel) : pyStrNatAux fuel n ≠ [] := by
  cases fuel with
  | zero => omega
  | succ f =>
    unfold pyStrNatAux
    split <;> simp

theorem mem_pyStrNatAux (fuel n : Nat) (c : Char) (hc : c ∈ pyStrNatAux fuel n) :
    ∃ d, d < 10 ∧ c = digitChar d := by
  induction fuel generalizing n with
  | zero => simp [pyStrNatAux] at hc
  | succ f ih =>
    unfold pyStrNatAux at hc
    split at hc
    · rename_i hlt
      simp at hc
      exact ⟨n, hlt, hc⟩
    · rcases List.mem_append.mp hc with h1 | h2
      · exact ih _ h1
      · simp at h2
        exact ⟨n % 10, Nat.mod_lt _ (by omega), h2⟩

theorem parseNatAux_append (xs ys : List Char) (acc : Nat) :
    parseNatAux (xs ++ ys) acc = (parseNatAux xs acc).bind (fun a => parseNatAux ys a) := by
  induction xs generalizing acc with
  | nil => simp [parseNatAux]
  | cons c rest ih =>
    simp only [List.cons_append, parseNatAux]
    cases digitVal c with
    | none => simp
    | some d => simp [ih]

theorem parseNatAux_pyStrNatAux (fuel : Nat) :
    ∀ n acc, n + 1 ≤ fuel →
      parseNatAux (pyStrNatAux fuel n) acc =
        some (acc * 10 ^ (pyStrNatAux fuel n).length + n) := by
  induction fuel with
  | zero => intro n acc h; omega
  | succ f ih =>
    intro n acc h
    unfold pyStrNatAux
    split
    · rename_i hlt
      simp [parseNatAux, digitVal_digitChar hlt]
    · rename_i hge
      have h10 : 10 ≤ n := by omega
      have hdiv : n / 10 < n := Nat.div_lt_self (by omega) (by omega)
      have hrec : n / 10 + 1 ≤ f := by omega
      rw [parseNatAux_append, ih (n / 10) acc hrec]
      have hm : n % 10 < 10 := Nat.mod_lt _ (by omega)
      have hstep : ∀ a : Nat, parseNatAux [digitChar (n % 10)] a = some (a * 10 + n % 10) := by
        intro a
        simp [parseNatAux, digitVal_digitChar hm]
      simp only [Option.some_bind, hstep, List.length_append, List.length_cons,
        List.length_nil, Nat.zero_add]
      congr 1
      have hdm : n / 10 * 10 + n % 10 = n := by omega
      calc (acc * 10 ^ (pyStrNatAux f (n / 10)).length + n / 10) * 10 + n % 10
          = acc * 10 ^ (pyStrNatAux f (n / 10)).length * 10 + (n / 10 * 10 + n % 10) := by ring
        _ = acc * (10 ^ (pyStrNatAux f (n / 10)).length * 10) + n := by rw [hdm, mul_assoc]
        _ = acc * 10 ^ ((pyStrNatAux f (n / 10)).length + 1) + n := by rw [pow_succ]

theorem parseNat_pyStrNat (n : Nat) : parseNat (pyStrNat n) = some n := by
  have hne := pyStrNatAux_ne_nil (n + 1) n (le_refl _)
  have hmain := parseNatAux_pyStrNatAux (n + 1) n 0 (le_refl _)
  unfold pyStrNat at hne hmain ⊢
  cases hcs : pyStrNatAux (n + 1) n with
  | nil => exact absurd hcs hne
  | cons c rest =>
    rw [hcs] at hmain
    simpa [parseNat] using hmain

theorem mem_pyStrNat (n : Nat) (c : Char) (hc : c ∈ pyStrNat n) :
    ∃ d, d < 10 ∧ c = digitChar d :=
  mem_pyStrNatAux _ _ _ hc

theorem parseInt_pyStrInt {i : Int} (h : 0 ≤ i) : parseInt (pyStrInt i) = some i := by
  have hneg : ¬ i < 0 := by omega
  unfold pyStrInt
  rw [if_neg hneg]
  have hne := pyStrNatAux_ne_nil (i.toNat + 1) i.toNat (le_refl _)
  cases hcs : pyStrNat i.toNat with
  | nil => exact absurd hcs hne
  | cons c rest =>
    have hmem : c ∈ pyStrNat i.toNat := by rw [hcs]; exact List.mem_cons_self _ _
    obtain ⟨d, hd, rfl⟩ := mem_pyStrNat _ _ hmem
    have hc' : digitChar d ≠ '-' := (digitChar_ne_special hd).2.2
    have hpn : parseNat (digitChar d :: rest) = some i.toNat := by
      rw [← hcs, parseNat_pyStrNat]
    simp only [parseInt, if_neg hc', hpn]
    simp [Int.toNat_of_nonneg h]

theorem comma_not_mem_pyStrInt {i : Int} (h : 0 ≤ i) : ',' ∉ pyStrInt i := by
  intro hmem
  unfold pyStrInt at hmem
  rw [if_neg (by omega : ¬ i < 0)] at hmem
  obtain ⟨d, hd, heq⟩ := mem_pyStrNat _ _ hmem
  exact (digitChar_ne_special hd).1 heq.symm

theorem colon_not_mem_pyStrInt {i : Int} (h : 0 ≤ i) : ':' ∉ pyStrInt i := by
  intro hmem
  unfold pyStrInt at hmem
  rw [if_neg (by omega : ¬ i < 0)] at hmem
  obtain ⟨d, hd, heq⟩ := mem_pyStrNat _ _ hmem
  exact (digitChar_ne_special hd).2.1 heq.symm

/-! ### Lemmas: `splitOnChar` -/

theorem splitOnChar_cons (sep c : Char) (rest : List Char) :
    splitOnChar sep (c :: rest) =
      match splitOnChar sep rest with
      | [] => [[]]
      | h :: t => if c = sep then [] :: h :: t else (c :: h) :: t := rfl

theorem splitOnChar_ne_nil (sep : Char) (cs : List Char) : splitOnChar sep cs ≠ [] := by
  cases cs with
  | nil => simp [splitOnChar]
  | cons c rest =>
    rw [splitOnChar_cons]
    cases hr : splitOnChar sep rest with
    | nil => simp
    | cons h t => by_cases hc : c = sep <;> simp [hc]

theorem splitOnChar_of_not_mem {sep : Char} {cs : List Char} (h : sep ∉ cs) :
    splitOnChar sep cs = [cs] := by
  induction cs with
  | nil => rfl
  | cons c rest ih =>
    have hcr : sep ∉ rest := fun hr => h (List.mem_cons_of_mem _ hr)
    have hcc : c ≠ sep := fun he => h (he ▸ List.mem_cons_self _ _)
    rw [splitOnChar_cons, ih hcr]
    simp [hcc]

theorem splitOnChar_append_cons {sep : Char} {xs : List Char} (h : sep ∉ xs) (ys : List Char) :
    splitOnChar sep (xs ++ sep :: ys) = xs :: splitOnChar sep ys := by
  induction xs with
  | nil =>
    simp only [List.nil_append]
    cases hys : splitOnChar sep ys with
    | nil => exact absurd hys (splitOnChar_ne_nil sep ys)
    | cons a t =>
      rw [splitOnChar_cons, hys]
      simp
  | cons c rest ih =>
    have hcr : sep ∉ rest := fun hr => h (List.mem_cons_of_mem _ hr)
    have hcc : c ≠ sep := fun he => h (he ▸ List.mem_cons_self _ _)
    simp only [List.cons_append]
    rw [splitOnChar_cons, ih hcr]
    simp [hcc]

/-! ### Lemmas: the serialized form of a slicing -/

theorem foldl_slicing (l : List PySlice) (acc : List Char) :
    l.foldl (fun acc s => acc ++ pyStrInt s.start ++ [':'] ++ pyStrInt s.stop ++ [',']) acc
      = acc ++ slicingBody l := by
  induction l generalizing acc with
  | nil => simp [slicingBody]
  | cons a t ih =>
    simp only [List.foldl_cons, slicingBody, List.foldr_cons] at *
    rw [ih]
    simp [sliceChars]

theorem slicingToString_eq (l : List PySlice) :
    slicingToString l = ('[' :: slicingBody l).dropLast ++ [']'] := by
  unfold slicingToString
  rw [foldl_slicing]
  rfl

theorem slicingBody_ne_nil {l : List PySlice} (h : l ≠ []) : slicingBody l ≠ [] := by
  cases l with
  | nil => exact absurd rfl h
  | cons a t => simp [slicingBody, sliceChars]

theorem comma_not_mem_sliceChars {s : PySlice} (h1 : 0 ≤ s.start) (h2 : 0 ≤ s.stop) :
    ',' ∉ sliceChars s := by
  unfold sliceChars
  intro hmem
  rcases List.mem_append.mp hmem with hm | hm
  · exact comma_not_mem_pyStrInt h1 hm
  · rcases List.mem_cons.mp hm with he | hm'
    · exact absurd he (by decide)
    · exact comma_not_mem_pyStrInt h2 hm'

theorem parseSliceStr_sliceChars (s : PySlice) (h1 : 0 ≤ s.start) (h2 : 0 ≤ s.stop) :
    parseSliceStr (sliceChars s) = some s := by
  have hsplit : splitOnChar ':' (sliceChars s) = [pyStrInt s.start, pyStrInt s.stop] := by
    unfold sliceChars
    rw [splitOnChar_append_cons (colon_not_mem_pyStrInt h1),
      splitOnChar_of_not_mem (colon_not_mem_pyStrInt h2)]
  unfold parseSliceStr
  rw [hsplit]
  simp [parseInt_pyStrInt h1, parseInt_pyStrInt h2]

theorem parseSlices_slicingBody (l : List PySlice) (hne : l ≠ [])
    (hnn : ∀ s ∈ l, 0 ≤ s.start ∧ 0 ≤ s.stop) :
    parseSlices (splitOnChar ',' (slicingBody l).dropLast) = some l := by
  induction l with
  | nil => exact absurd rfl hne
  | cons a t ih =>
    obtain ⟨ha1, ha2⟩ := hnn a (List.mem_cons_self _ _)
    cases t with
    | nil =>
      have hbody : slicingBody [a] = sliceChars a ++ [','] := by
        simp [slicingBody]
      rw [hbody, List.dropLast_concat,
        splitOnChar_of_not_mem (comma_not_mem_sliceChars ha1 ha2)]
      simp [parseSlices, parseSliceStr_sliceChars a ha1 ha2]
    | cons b t' =>
      have hbne : slicingBody (b :: t') ≠ [] := slicingBody_ne_nil (by simp)
      have hbody : slicingBody (a :: b :: t') = sliceChars a ++ ',' :: slicingBody (b :: t') := by
        simp [slicingBody]
      rw [hbody, List.dropLast_append_of_ne_nil _ (by simp [hbne]),
        List.dropLast_cons_of_ne_nil hbne,
        splitOnChar_append_cons (comma_not_mem_sliceChars ha1 ha2)]
      have hrec := ih (by simp) (fun s hs => hnn s (List.mem_cons_of_mem _ hs))
      simp [parseSlices, parseSliceStr_sliceChars a ha1 ha2, hrec]

/-! ### C1 -/

/-- C1 counterexample: for the empty slicing the round-trip fails:
`slicingToString []` is the single character `]` (the `[:-1]` drops the opening
bracket instead of a trailing comma), and `stringToSlicing "]"` hits
`int('')`, a `ValueError`, so it does not recover `[]`. -/
theorem roundtrip_fails_on_empty_slicing :
    stringToSlicing (slicingToString ([] : List PySlice)) ≠ some [] := by decide

/-- C1 (amended): for every NON-EMPTY slicing whose bounds are non-negative
integers, parsing the serialized form recovers the original:
`stringToSlicing (slicingToString roi) = roi`. -/
theorem stringToSlicing_slicingToString (l : List PySlice) (hne : l ≠ [])
    (hnn : ∀ s ∈ l, 0 ≤ s.start ∧ 0 ≤ s.stop) :
    stringToSlicing (slicingToString l) = some l := by
  rw [slicingToString_eq]
  unfold stringToSlicing
  have hbne : slicingBody l ≠ [] := slicingBody_ne_nil hne
  rw [List.dropLast_cons_of_ne_nil hbne]
  simp only [List.cons_append, List.drop_succ_cons, List.drop_zero, List.dropLast_concat]
  exact parseSlices_slicingBody l hne hnn

/-- C1 witness: the round-trip at the spec's example slicing `[0:10,0:5,0:1]`. -/
theorem stringToSlicing_slicingToString_witness :
    ([⟨0, 10⟩, ⟨0, 5⟩, ⟨0, 1⟩] : List PySlice) ≠ [] ∧
    (∀ s ∈ ([⟨0, 10⟩, ⟨0, 5⟩, ⟨0, 1⟩] : List PySlice), 0 ≤ s.start ∧ 0 ≤ s.stop) ∧
    stringToSlicing (slicingToString [⟨0, 10⟩, ⟨0, 5⟩, ⟨0, 1⟩]) =
      some [⟨0, 10⟩, ⟨0, 5⟩, ⟨0, 1⟩] :=
  ⟨by decide, by decide,
    stringToSlicing_slicingToString [⟨0, 10⟩, ⟨0, 5⟩, ⟨0, 1⟩] (by decide) (by decide)⟩

/-! ### Dirty-region helper lemmas -/

theorem forall2_le_refl (xs : List Int) : List.Forall₂ (fun a b => a ≤ b) xs xs := by
  induction xs with
  | nil => exact List.Forall₂.nil
  | cons a t ih => exact List.Forall₂.cons (le_refl a) ih

theorem DirtyRegion.contains_refl (d : DirtyRegion) : d.contains d := by
  cases d with
  | region s t => exact ⟨forall2_le_refl s, forall2_le_refl t⟩
  | all => trivial

/-! ### C2, C3: propagateDirty -/

/-- C2: a change of a scalar input slot (`OpHighlightLabel.HighlightLabel`,
`OpSplitBodyCarving.CurrentRavelerLabel`) makes `propagateDirty` mark the
dependent output dirty over the entire domain, the unbounded `slice(None)`
marker, never a sub-region. -/
theorem scalar_slot_dirties_whole_domain (roi : Roi) :
    OpHighlightLabel.propagateDirty HighlightInSlot.highlightLabel roi
        = some [(HighlightOutSlot.output, DirtyRegion.all)] ∧
    OpSplitBodyCarving.propagateDirty CarvingInSlot.currentRavelerLabel roi
        = some [(CarvingOutSlot.maskedSegmentation, DirtyRegion.all)] :=
  ⟨rfl, rfl⟩

/-- C3: a bounded dirty ROI on a region-indexed input (`OpHighlightLabel.Input`,
`OpSplitBodyCarving.RavelerLabels`) is propagated by `propagateDirty` as a
single `setDirty` with region exactly `(roi.start, roi.stop)`. -/
theorem region_slot_dirties_exact_roi (roi : Roi) :
    OpHighlightLabel.propagateDirty HighlightInSlot.input roi
        = some [(HighlightOutSlot.output, DirtyRegion.region roi.start roi.stop)] ∧
    OpSplitBodyCarving.propagateDirty CarvingInSlot.ravelerLabels roi
        = some [(CarvingOutSlot.maskedSegmentation, DirtyRegion.region roi.start roi.stop)] :=
  ⟨rfl, rfl⟩

/-! ### C4: setupOutputs is not side-effect-free -/

/-- C4: the code evaluated at the failing input.  Two `setupOutputs` calls
with unchanged inputs do assign identical MaskedSegmentation metadata, but
every call appends a fresh `handleDirtySegmentation` to the Segmentation
slot's callback list, so after two calls a single Segmentation dirty event
produces two `MaskedSegmentation.setDirty` calls instead of one: repeated
`setupOutputs` changes observable behaviour, contradicting the claim. -/
theorem setupOutputs_registers_duplicate_handlers (segMeta : SlotMeta) (r : DirtyRegion) :
    (OpSplitBodyCarving.setupOutputs segMeta
        (OpSplitBodyCarving.setupOutputs segMeta OpSplitBodyCarving.freshState)).maskedSegMeta
      = (OpSplitBodyCarving.setupOutputs segMeta OpSplitBodyCarving.freshState).maskedSegMeta ∧
    (OpSplitBodyCarving.setupOutputs segMeta
        OpSplitBodyCarving.freshState).segSubscribers.length = 1 ∧
    (OpSplitBodyCarving.setupOutputs segMeta
        (OpSplitBodyCarving.setupOutputs segMeta
          OpSplitBodyCarving.freshState)).segSubscribers.length = 2 ∧
    OpSplitBodyCarving.fireSegmentationDirty
        (OpSplitBodyCarving.setupOutputs segMeta
          (OpSplitBodyCarving.setupOutputs segMeta OpSplitBodyCarving.freshState)) r
      = [(CarvingOutSlot.maskedSegmentation, r), (CarvingOutSlot.maskedSegmentation, r)] :=
  ⟨rfl, rfl, rfl, rfl⟩

/-! ### C5: exactly one dirty callback per subscriber -/

/-- C5: a dirty event with region `r` delivers exactly one callback per
registered subscriber, each carrying `r` (which contains `r`); in particular,
after the single registration performed by `OpSplitBodyCarving.setupOutputs`
on a fresh operator, one Segmentation dirty event yields exactly one
`MaskedSegmentation.setDirty`, with region exactly `r`. -/
theorem segmentation_dirty_exactly_one_callback (segMeta : SlotMeta) (r : DirtyRegion)
    (subs : List (DirtyRegion → List (CarvingOutSlot × DirtyRegion))) :
    (dirtyDeliveries subs r).length = subs.length ∧
    (∀ d ∈ dirtyDeliveries subs r, DirtyRegion.contains d r) ∧
    OpSplitBodyCarving.fireSegmentationDirty
        (OpSplitBodyCarving.setupOutputs segMeta OpSplitBodyCarving.freshState) r
      = [(CarvingOutSlot.maskedSegmentation, r)] := by
  refine ⟨by simp [dirtyDeliveries], ?_, rfl⟩
  intro d hd
  simp only [dirtyDeliveries] at hd
  obtain ⟨f, -, h⟩ := List.mem_map.mp hd
  rw [← h]
  exact DirtyRegion.contains_refl r

/-- C5 witness: one subscriber, one unbounded dirty event. -/
theorem segmentation_dirty_exactly_one_callback_witness :
    (dirtyDeliveries [OpSplitBodyCarving.handleDirtySegmentation] DirtyRegion.all).length
        = [OpSplitBodyCarving.handleDirtySegmentation].length ∧
    (∀ d ∈ dirtyDeliveries [OpSplitBodyCarving.handleDirtySegmentation] DirtyRegion.all,
      DirtyRegion.contains d DirtyRegion.all) ∧
    OpSplitBodyCarving.fireSegmentationDirty
        (OpSplitBodyCarving.setupOutputs ⟨[4], 0⟩ OpSplitBodyCarving.freshState)
        DirtyRegion.all
      = [(CarvingOutSlot.maskedSegmentation, DirtyRegion.all)] :=
  segmentation_dirty_exactly_one_callback ⟨[4], 0⟩ DirtyRegion.all
    [OpSplitBodyCarving.handleDirtySegmentation]

/-! ### C6: serializer dirty flags -/

/-- C6: after `_serializeToHdf5` every per-section dirty flag is `false`, so
`isDirty()` returns `false`; `isDirty()` returns `true` exactly when at least
one section flag is set, and a dirty callback (`handleDirty`) always sets
one. -/
theorem isDirty_flags_spec (f : DirtyFlags) (sec : SerSection) :
    isDirty (serializeToHdf5 f).1 = false ∧
    (isDirty f = true ↔ f.labels = true ∨ f.classifier = true ∨ f.predictions = true) ∧
    isDirty (handleDirty sec f) = true := by
  refine ⟨rfl, ?_, ?_⟩
  · simp [isDirty, or_assoc]
  · cases sec <;> simp [handleDirty, isDirty]

/-! ### C7: forceValue -/

/-- C7: forcing a classifier value into the cache slot (as
`_deserializeClassifier` does on `classifier_cache`) makes `ready()` true
immediately and triggers no recomputation of the value. -/
theorem forceValue_ready_no_retrain {α : Type} (cache : CacheSlot α) (c : α)
    (f : DirtyFlags) :
    (forceValue cache c).ready = true ∧
    (forceValue cache c).retrainCount = cache.retrainCount ∧
    (deserializeClassifier (some (some c)) cache f).1.ready = true ∧
    (deserializeClassifier (some (some c)) cache f).1.retrainCount = cache.retrainCount :=
  ⟨rfl, rfl, rfl, rfl⟩

/-! ### C8: execute fills a buffer of shape stop - start -/

/-- C8: `execute` fills and returns the pre-allocated result buffer, whose
shape equals the roi extent `stop - start` elementwise, for both
`OpHighlightLabel.Output` and `OpSplitBodyCarving.MaskedSegmentation`; the
amount of data returned is exactly the extent's product. -/
theorem execute_fills_roi_extent (roi : Roi) (label currentLabel : Nat)
    (inputData segData ravelerData result : NDArray)
    (hshape : result.shape = roiExtent roi)
    (hres : result.data.length = (roiExtent roi).prod)
    (hin : inputData.data.length = (roiExtent roi).prod)
    (hseg : segData.data.length = (roiExtent roi).prod)
    (hrav : ravelerData.data.length = (roiExtent roi).prod) :
    ((OpHighlightLabel.execute label inputData result).shape = roiExtent roi ∧
      (OpHighlightLabel.execute label inputData result).data.length = (roiExtent roi).prod) ∧
    ((OpSplitBodyCarving.executeMaskedSegmentation currentLabel ravelerData segData
          result).shape = roiExtent roi ∧
      (OpSplitBodyCarving.executeMaskedSegmentation currentLabel ravelerData segData
          result).data.length = (roiExtent roi).prod) := by
  unfold OpHighlightLabel.execute OpSplitBodyCarving.executeMaskedSegmentation writeInto
  refine ⟨⟨?_, ?_⟩, ?_, ?_⟩
  · split <;> exact hshape
  · split <;> simp [hres, hin]
  · exact hshape
  · simp [hrav, hseg]

/-- C8 witness: a 2 x 3 roi with matching buffers. -/
theorem execute_fills_roi_extent_witness :
    ((OpHighlightLabel.execute 5 ⟨[2, 3], [1, 5, 3, 5, 0, 2]⟩
          ⟨[2, 3], [0, 0, 0, 0, 0, 0]⟩).shape = roiExtent ⟨[0, 0], [2, 3]⟩ ∧
      (OpHighlightLabel.execute 5 ⟨[2, 3], [1, 5, 3, 5, 0, 2]⟩
          ⟨[2, 3], [0, 0, 0, 0, 0, 0]⟩).data.length = (roiExtent ⟨[0, 0], [2, 3]⟩).prod) ∧
    ((OpSplitBodyCarving.executeMaskedSegmentation 7 ⟨[2, 3], [7, 0, 7, 0, 7, 0]⟩
          ⟨[2, 3], [9, 8, 7, 6, 5, 4]⟩ ⟨[2, 3], [0, 0, 0, 0, 0, 0]⟩).shape
        = roiExtent ⟨[0, 0], [2, 3]⟩ ∧
      (OpSplitBodyCarving.executeMaskedSegmentation 7 ⟨[2, 3], [7, 0, 7, 0, 7, 0]⟩
          ⟨[2, 3], [9, 8, 7, 6, 5, 4]⟩ ⟨[2, 3], [0, 0, 0, 0, 0, 0]⟩).data.length
        = (roiExtent ⟨[0, 0], [2, 3]⟩).prod) :=
  execute_fills_roi_extent ⟨[0, 0], [2, 3]⟩ 5 7 ⟨[2, 3], [1, 5, 3, 5, 0, 2]⟩
    ⟨[2, 3], [9, 8, 7, 6, 5, 4]⟩ ⟨[2, 3], [7, 0, 7, 0, 7, 0]⟩ ⟨[2, 3], [0, 0, 0, 0, 0, 0]⟩
    (by decide) (by decide) (by decide) (by decide) (by decide)

/-! ### C9: pointwise value of HighlightedRavelerObject -/

/-- C9: over any roi, HighlightedRavelerObject (the wired
`OpHighlightLabel.Output`) is 0 everywhere when CurrentRavelerLabel is 0, and
otherwise is 1 exactly where RavelerLabels equals the highlight label and 0
elsewhere. -/
theorem highlightedRavelerObject_pointwise (label : Nat) (ravelerData buffer : NDArray)
    (hlen : buffer.data.length = ravelerData.data.length)
    (i : Nat) (hi : i < ravelerData.data.length) :
    (OpSplitBodyCarving.highlightedRavelerObject label ravelerData buffer).data[i]? =
      some (if label = 0 then 0
        else if ravelerData.data.getD i 0 = label then 1 else 0) := by
  unfold OpSplitBodyCarving.highlightedRavelerObject OpHighlightLabel.execute writeInto
  by_cases h0 : label = 0
  · have hib : i < buffer.data.length := by omega
    simp [h0, List.getElem?_map, List.getElem?_replicate, List.getElem?_eq_getElem hib, hib]
  · simp [h0, List.getElem?_map, List.getElem?_eq_getElem hi, List.getD_eq_getElem?_getD]

/-- C9 witness: label 5 over data `[5, 3]`. -/
theorem highlightedRavelerObject_pointwise_witness :
    (⟨[2], [9, 9]⟩ : NDArray).data.length = (⟨[2], [5, 3]⟩ : NDArray).data.length ∧
    0 < (⟨[2], [5, 3]⟩ : NDArray).data.length ∧
    (OpSplitBodyCarving.highlightedRavelerObject 5 ⟨[2], [5, 3]⟩
        ⟨[2], [9, 9]⟩).data[0]? =
      some (if 5 = 0 then 0
        else if (⟨[2], [5, 3]⟩ : NDArray).data.getD 0 0 = 5 then 1 else 0) :=
  ⟨by decide, by decide,
    highlightedRavelerObject_pointwise 5 ⟨[2], [5, 3]⟩ ⟨[2], [9, 9]⟩ (by decide) 0 (by decide)⟩

/-! ### C10: reentrancy guard -/

/-- C10: `configure_gui_from_operator` and `configure_operator_from_gui` are
reentrancy-guarded: invoked while `_currently_updating` is true they return
immediately, mutating neither GUI widgets nor operator slots; a guarded run
started with the flag false leaves the flag false on (normal) exit. -/
theorem configure_reentrancy_guard {β : Type} (names : List String) (defaultName : String)
    (g : GuiState β) (o : OpState β) :
    (g.currentlyUpdating = true →
      configure_gui_from_operator names defaultName g o = some (g, o) ∧
      configure_operator_from_gui names g o = some (g, o)) ∧
    (g.currentlyUpdating = false →
      (∀ g' o', configure_gui_from_operator names defaultName g o = some (g', o') →
        g'.currentlyUpdating = false) ∧
      (∀ g' o', configure_operator_from_gui names g o = some (g', o') →
        g'.currentlyUpdating = false)) := by
  constructor
  · intro h
    constructor <;> simp [configure_gui_from_operator, configure_operator_from_gui, h]
  · intro h
    constructor
    · intro g' o' heq
      simp only [configure_gui_from_operator, h, Bool.false_eq_true, if_false] at heq
      cases hidx : names.findIdx? (fun n => n == o.solverName) with
      | some idx =>
        rw [hidx] at heq
        simp only [Option.some.injEq, Prod.mk.injEq] at heq
        obtain ⟨hg, -⟩ := heq
        rw [← hg]
      | none =>
        rw [hidx] at heq
        cases hd : names.findIdx? (fun n => n == defaultName) with
        | some didx =>
          rw [hd] at heq
          simp only [Option.some.injEq, Prod.mk.injEq] at heq
          obtain ⟨hg, -⟩ := heq
          rw [← hg]
        | none =>
          rw [hd] at heq
          exact absurd heq (by simp)
    · intro g' o' heq
      simp only [configure_operator_from_gui, h, Bool.false_eq_true, if_false,
        Option.some.injEq, Prod.mk.injEq] at heq
      obtain ⟨hg, -⟩ := heq
      rw [← hg]

/-- C10 witness: with the flag raised both functions return unchanged
state. -/
theorem configure_reentrancy_guard_witness :
    configure_gui_from_operator ["opengm"] "opengm" (⟨true, 0, 0⟩ : GuiState Nat)
        ⟨0, "opengm"⟩ = some (⟨true, 0, 0⟩, ⟨0, "opengm"⟩) ∧
    configure_operator_from_gui ["opengm"] (⟨true, 0, 0⟩ : GuiState Nat) ⟨0, "opengm"⟩
        = some (⟨true, 0, 0⟩, ⟨0, "opengm"⟩) :=
  (configure_reentrancy_guard ["opengm"] "opengm" ⟨true, 0, 0⟩ ⟨0, "opengm"⟩).1 rfl

end Ilastik
